import Mathlib

/-!
Verification of the `subparse` subtitle library (Rust) against its
natural-language specification.

This file contains a shallow embedding of the parts of the source that the
claims refer to:

* `src/timetypes.rs` — `Timing`, `TimePoint`, `TimeDelta`, `TimeSpan`
  (machine `i64` values are modelled as unbounded `Int`; the spec declares
  integer overflow to be out of scope / platform behaviour, and no claim is
  about values near `2^63`).  Rust's `/` and `%` on `i64` truncate toward
  zero, so they are modelled with `Int.tdiv` / `Int.tmod`.
* `src/formats/common.rs` — BOM splitting, non-destructive line splitting,
  filler deduplication, and the character-level parsers used by the format
  parsers (the `combine` parser combinators are modelled as functions
  `List Char → Option (α × List Char)`).
* `src/formats/idx.rs`, `src/formats/srt.rs`, `src/formats/ssa.rs`,
  `src/formats/microdvd.rs`, `src/formats/mod.rs` — the format file types
  and their `parse` / `get_subtitle_entries` / `update_subtitle_entries` /
  `to_data` operations.

Rust strings are modelled as `List Char`.  A Rust `panic!` / failed
`assert!` / arithmetic underflow / out-of-bounds index is modelled by the
value `none` of an `Option` result; `Result::Err` is also modelled by
`none` in functions where the claims only distinguish success from
failure.  Floating point (`f64`) appears only in the MicroDVD
frame/timestamp conversions; it is modelled with exact rationals `ℚ`, and
the Rust `as i64` cast by truncation toward zero (`ratTrunc` below).
-/

namespace Subparse

/-- Rust `i64 / i64` (truncation toward zero). -/
def rdiv (a b : Int) : Int := Int.tdiv a b

/-- Rust `i64 % i64` (remainder with the dividend's sign). -/
def rmod (a b : Int) : Int := Int.tmod a b

-- ////////////////////////////////////////////////////////////////////////
-- src/timetypes.rs

/-- Source `struct Timing(i64)` — millisecond count. -/
structure Timing where
  ms : Int
deriving DecidableEq, Repr

namespace Timing

/-- Source `Timing::from_components`. -/
def from_components (hours mins secs ms : Int) : Timing :=
  ⟨ms + 1000 * (secs + 60 * (mins + 60 * hours))⟩

/-- Source `Timing::from_msecs`. -/
def from_msecs (ms : Int) : Timing := ⟨ms⟩

/-- Source `Timing::from_csecs`. -/
def from_csecs (cs : Int) : Timing := ⟨cs * 10⟩

/-- Source `Timing::from_secs`. -/
def from_secs (s : Int) : Timing := ⟨s * 1000⟩

/-- Source `Timing::from_mins`. -/
def from_mins (mins : Int) : Timing := ⟨mins * 1000 * 60⟩

/-- Source `Timing::from_hours`. -/
def from_hours (h : Int) : Timing := ⟨h * 1000 * 60 * 60⟩

/-- Source `Timing::msecs`. -/
def msecs (t : Timing) : Int := t.ms

/-- Source `Timing::csecs`. -/
def csecs (t : Timing) : Int := rdiv t.ms 10

/-- Source `Timing::secs`. -/
def secs (t : Timing) : Int := rdiv t.ms 1000

/-- Source `Timing::mins`. -/
def mins (t : Timing) : Int := rdiv t.ms (60 * 1000)

/-- Source `Timing::hours`. -/
def hours (t : Timing) : Int := rdiv t.ms (60 * 60 * 1000)

/-- Source `Timing::mins_comp`. -/
def mins_comp (t : Timing) : Int := rmod t.mins 60

/-- Source `Timing::secs_comp`. -/
def secs_comp (t : Timing) : Int := rmod t.secs 60

/-- Source `Timing::csecs_comp`. -/
def csecs_comp (t : Timing) : Int := rmod t.csecs 100

/-- Source `Timing::msecs_comp`. -/
def msecs_comp (t : Timing) : Int := rmod t.msecs 1000

/-- Source `Timing::is_negative`. -/
def is_negative (t : Timing) : Bool := t.ms < 0

/-- Source `impl Add for Timing`. -/
def add (a b : Timing) : Timing := ⟨a.ms + b.ms⟩

/-- Source `impl Sub for Timing`: `Timing(self.0 - rhs.0)`. -/
def sub (a b : Timing) : Timing := ⟨a.ms - b.ms⟩

/-- Source `impl AddAssign for Timing`: `self.0 += r.0`. -/
def add_assign (a b : Timing) : Timing := ⟨a.ms + b.ms⟩

/-- Source `impl SubAssign for Timing`: the source body is `self.0 += r.0;`
(it adds, despite implementing `-=`). -/
def sub_assign (a b : Timing) : Timing := ⟨a.ms + b.ms⟩

/-- Source `impl Neg for Timing`. -/
def neg (a : Timing) : Timing := ⟨-a.ms⟩

end Timing

/-- Source `pub struct TimePoint { intern: Timing }`. -/
structure TimePoint where
  intern : Timing
deriving DecidableEq, Repr

/-- Source `pub struct TimeDelta { intern: Timing }`. -/
structure TimeDelta where
  intern : Timing
deriving DecidableEq, Repr

namespace TimePoint

/-- Source `TimePoint::from_components` (generated by `create_time_type!`). -/
def from_components (hours mins secs ms : Int) : TimePoint :=
  ⟨Timing.from_components hours mins secs ms⟩

/-- Source `TimePoint::from_msecs`. -/
def from_msecs (ms : Int) : TimePoint := ⟨Timing.from_msecs ms⟩

/-- Source `TimePoint::msecs`. -/
def msecs (t : TimePoint) : Int := t.intern.msecs

/-- Source `TimePoint::csecs_comp`. -/
def csecs_comp (t : TimePoint) : Int := t.intern.csecs_comp

/-- Source `TimePoint::msecs_comp`. -/
def msecs_comp (t : TimePoint) : Int := t.intern.msecs_comp

/-- Source `TimePoint::secs_comp`. -/
def secs_comp (t : TimePoint) : Int := t.intern.secs_comp

/-- Source `TimePoint::mins_comp`. -/
def mins_comp (t : TimePoint) : Int := t.intern.mins_comp

/-- Source `TimePoint::hours`. -/
def hours (t : TimePoint) : Int := t.intern.hours

/-- Source `impl Neg for TimePoint`. -/
def neg (t : TimePoint) : TimePoint := ⟨t.intern.neg⟩

end TimePoint

namespace TimeDelta

/-- Source `TimeDelta::from_components` (generated by `create_time_type!`). -/
def from_components (hours mins secs ms : Int) : TimeDelta :=
  ⟨Timing.from_components hours mins secs ms⟩

/-- Source `TimeDelta::from_msecs`. -/
def from_msecs (ms : Int) : TimeDelta := ⟨Timing.from_msecs ms⟩

/-- Source `TimeDelta::from_mins`. -/
def from_mins (mins : Int) : TimeDelta := ⟨Timing.from_mins mins⟩

/-- Source `TimeDelta::msecs`. -/
def msecs (t : TimeDelta) : Int := t.intern.msecs

end TimeDelta

/-- Source `impl Add<TimeDelta> for TimePoint` (from `impl_add!`). -/
def timePointAddDelta (a : TimePoint) (b : TimeDelta) : TimePoint :=
  ⟨a.intern.add b.intern⟩

/-- Source `impl Sub<TimeDelta> for TimePoint` (from `impl_sub!`):
`$output::new(self.intern - rhs.intern)` — uses `Timing`'s correct `Sub`. -/
def timePointSubDelta (a : TimePoint) (b : TimeDelta) : TimePoint :=
  ⟨a.intern.sub b.intern⟩

/-- Source `impl Sub<TimePoint> for TimePoint` (from `impl_sub!`). -/
def timePointSubPoint (a : TimePoint) (b : TimePoint) : TimeDelta :=
  ⟨a.intern.sub b.intern⟩

/-- Source `impl Sub<TimeDelta> for TimeDelta` (from `impl_sub!`). -/
def timeDeltaSubDelta (a : TimeDelta) (b : TimeDelta) : TimeDelta :=
  ⟨a.intern.sub b.intern⟩

/-- Source `impl SubAssign<TimeDelta> for TimePoint` (from `impl_sub_assign!`):
`self.intern -= r.intern;` — delegates to `Timing`'s `SubAssign`. -/
def timePointSubAssignDelta (a : TimePoint) (b : TimeDelta) : TimePoint :=
  ⟨a.intern.sub_assign b.intern⟩

/-- Source `impl SubAssign<TimeDelta> for TimeDelta` (from `impl_sub_assign!`). -/
def timeDeltaSubAssignDelta (a : TimeDelta) (b : TimeDelta) : TimeDelta :=
  ⟨a.intern.sub_assign b.intern⟩

/-- Source `pub struct TimeSpan`. -/
structure TimeSpan where
  start : TimePoint
  «end» : TimePoint
deriving DecidableEq, Repr

/-- Source `TimeSpan::new`. -/
def TimeSpan.new (start e : TimePoint) : TimeSpan := ⟨start, e⟩

-- ////////////////////////////////////////////////////////////////////////
-- src/lib.rs : SubtitleEntry

/-- Source `pub struct SubtitleEntry` (src/lib.rs). -/
structure SubtitleEntry where
  timespan : TimeSpan
  line : Option (List Char)
deriving DecidableEq, Repr

/-- Source `SubtitleEntry::new` (line always present). -/
def SubtitleEntry.new (timespan : TimeSpan) (line : List Char) : SubtitleEntry :=
  ⟨timespan, some line⟩

/-- Source `impl From<TimeSpan> for SubtitleEntry` (line absent). -/
def SubtitleEntry.fromTimeSpan (ts : TimeSpan) : SubtitleEntry :=
  ⟨ts, none⟩

-- ////////////////////////////////////////////////////////////////////////
-- src/formats/common.rs

/-- A Rust `String` / `&str`, modelled as its character sequence. -/
abbrev Str := List Char

/-- The Unicode `White_Space` property, as used by Rust's
`char::is_whitespace` (and hence `str::trim` / `str::trim_left`). -/
def rustIsWhitespace (c : Char) : Bool :=
  c = ' ' || c = '\t' || c = '\n' || c = '\x0b' || c = '\x0c' || c = '\r' ||
  c = '\u0085' || c = ' ' || c = ' ' ||
  (' ' ≤ c && c ≤ ' ') ||
  c = ' ' || c = ' ' || c = ' ' || c = ' ' || c = '　'

/-- Rust `str::trim_left` / `trim_start` (drops leading Unicode whitespace). -/
def rustTrimLeft (s : Str) : Str := s.dropWhile rustIsWhitespace

/-- Rust `str::trim` (drops leading and trailing Unicode whitespace). -/
def rustTrim (s : Str) : Str :=
  ((s.dropWhile rustIsWhitespace).reverse.dropWhile rustIsWhitespace).reverse

/-- Rust `str::starts_with` for a string pattern. -/
def startsWith (pat s : Str) : Bool := pat.isPrefixOf s

/-- Source `common::split_bom`.  The source checks the raw byte prefixes
`EF BB BF` and `FE FF`; in a valid UTF-8 string only the first can occur,
as the single character U+FEFF (the byte pair `FE FF` is not valid UTF-8,
so that branch is unreachable from safe Rust and is not modelled). -/
def split_bom (s : Str) : Str × Str :=
  match s with
  | '﻿' :: rest => (['﻿'], rest)
  | _ => ([], s)

/-- The character class accepted by `common::ws()` (space and tab only). -/
def wsST (c : Char) : Bool := c = ' ' || c = '\t'

/-- Source `combine`'s `many(ws())`: split a leading run of spaces/tabs. -/
def spanWs (s : Str) : Str × Str := (s.takeWhile wsST, s.dropWhile wsST)

/-- Source `common::trim_left` (via `many(ws())`): split leading spaces/tabs. -/
def trim_left (s : Str) : Str × Str := spanWs s

/-- Source `common::trim_non_destructive`: returns
(leading ws, trimmed middle, trailing ws), space/tab only. -/
def trim_non_destructive (s : Str) : Str × Str × Str :=
  let (begin1, rest) := trim_left s
  let (end1, rest2) := trim_left rest.reverse
  (begin1, rest2.reverse, end1.reverse)

/-- Decimal value of a digit run (the `FromStr` call in `number_i64`;
`i64` overflow, which would panic there, is not modelled — values are
unbounded integers). -/
def digitsToInt (ds : Str) : Int :=
  ds.foldl (fun acc c => acc * 10 + (c.toNat - '0'.toNat : Int)) 0

/-- Source `common::number_i64`: `(optional(char('-')), many1(digit()))`.
Returns the parsed value and the remaining input, or `none` on failure. -/
def number_i64 (s : Str) : Option (Int × Str) :=
  match s with
  | '-' :: r =>
    let ds := r.takeWhile Char.isDigit
    if ds.isEmpty then none else some (-(digitsToInt ds), r.dropWhile Char.isDigit)
  | r =>
    let ds := r.takeWhile Char.isDigit
    if ds.isEmpty then none else some (digitsToInt ds, r.dropWhile Char.isDigit)

/-- Source `combine`'s `string(pat)`: consume a literal, or fail. -/
def literal (pat : Str) (s : Str) : Option Str :=
  if startsWith pat s then some (s.drop pat.length) else none

/-- Source `combine`'s `token(c)`: consume one expected character, or fail. -/
def token1 (c : Char) (s : Str) : Option Str :=
  match s with
  | c' :: r => if c' = c then some r else none
  | [] => none

/-- Source `common::get_lines_non_destructive`: split into
`(line content, line terminator)` pairs, accepting `\n`, `\r\n` and bare
`\r`; the final line (if any input remains) has an empty terminator.  The
source's loop scans to the first `'\r'`/`'\n'`; here the scan is expressed
character by character (prepending each non-terminator character to the
current line) so that the recursion is structural. -/
def get_lines_non_destructive : Str → List (Str × Str)
  | [] => []
  | '\r' :: '\n' :: r => ([], ['\r', '\n']) :: get_lines_non_destructive r
  | '\r' :: r => ([], ['\r']) :: get_lines_non_destructive r
  | '\n' :: r => ([], ['\n']) :: get_lines_non_destructive r
  | c :: r =>
    match get_lines_non_destructive r with
    | [] => [([c], [])]
    | (line, newl) :: tail => (c :: line, newl) :: tail

/-- Source `common::dedup_string_parts`, abstracted over the file-part type:
`isF` plays the role of the `extract_fn` closure (returns the filler text
when the part is a filler), `mkF` rebuilds a filler part from text (in the
source the merged text is written back through the mutable reference).
One step of the fold; the accumulator holds the output in reverse. -/
def dedupStep {T : Type} (isF : T → Option Str) (mkF : Str → T)
    (acc : List T) (part : T) : List T :=
  match acc with
  | last :: accRest =>
    match isF last, isF part with
    | some t1, some t2 => mkF (t1 ++ t2) :: accRest
    | _, _ => part :: acc
  | [] => [part]

/-- Source `common::dedup_string_parts`: merge consecutive filler parts. -/
def dedup_string_parts {T : Type} (isF : T → Option Str) (mkF : Str → T)
    (v : List T) : List T :=
  (v.foldl (dedupStep isF mkF) []).reverse

-- ////////////////////////////////////////////////////////////////////////
-- src/formats/idx.rs

/-- Source `enum IdxFilePart`. -/
inductive IdxFilePart where
  | Filler (s : Str)
  | Timestamp (t : TimePoint)
deriving DecidableEq, Repr

/-- The `extract_fn` closure passed to `dedup_string_parts` in
`IdxFile::new`. -/
def IdxFilePart.fillerText : IdxFilePart → Option Str
  | IdxFilePart.Filler t => some t
  | _ => none

/-- Source `pub struct IdxFile`. -/
structure IdxFile where
  v : List IdxFilePart
deriving DecidableEq, Repr

/-- Source `IdxFile::new` (merges consecutive fillers). -/
def IdxFile.new (v : List IdxFilePart) : IdxFile :=
  ⟨dedup_string_parts IdxFilePart.fillerText IdxFilePart.Filler v⟩

/-- Source `IdxFile::parse_timestamp`: parses `HH:MM:SS:mmm`
(`number_i64, ':', number_i64, ':', number_i64, ':', number_i64, eof`). -/
def Idx.parse_timestamp (s : Str) : Option TimePoint := do
  let (h, r1) ← number_i64 s
  let r2 ← token1 ':' r1
  let (m, r3) ← number_i64 r2
  let r4 ← token1 ':' r3
  let (sec, r5) ← number_i64 r4
  let r6 ← token1 ':' r5
  let (ms, r7) ← number_i64 r6
  if r7 = [] then pure (TimePoint.from_components h m sec ms) else none

/-- Source `IdxFile::parse_line`: a line is either pure filler, or
`many(ws()), string("timestamp:"), many(ws()), many(digit|':'), many(any), eof`. -/
def Idx.parse_line (s : Str) : Option (List IdxFilePart) :=
  if ¬ startsWith "timestamp:".toList (rustTrimLeft s) then
    some [IdxFilePart.Filler s]
  else
    let (ws1, r1) := spanWs s
    match literal "timestamp:".toList r1 with
    | none => none
    | some r2 =>
      let (ws2, r3) := spanWs r2
      let tsStr := r3.takeWhile (fun c => c.isDigit || c = ':')
      let r4 := r3.dropWhile (fun c => c.isDigit || c = ':')
      match Idx.parse_timestamp tsStr with
      | none => none
      | some tp =>
        some [IdxFilePart.Filler ws1, IdxFilePart.Filler "timestamp:".toList,
              IdxFilePart.Filler ws2, IdxFilePart.Timestamp tp, IdxFilePart.Filler r4]

/-- The per-line loop in `IdxFile::parse_inner`: each line's parts followed
by a filler holding the line terminator. -/
def Idx.parse_lines : List (Str × Str) → Option (List IdxFilePart)
  | [] => some []
  | (line, newl) :: rest => do
    let parts ← Idx.parse_line line
    let tail ← Idx.parse_lines rest
    pure (parts ++ [IdxFilePart.Filler newl] ++ tail)

/-- Source `IdxFile::parse_inner` / `parse_from_string`. -/
def IdxFile.parse (i : Str) : Option IdxFile := do
  let (bom, s) := split_bom i
  let parts ← Idx.parse_lines (get_lines_non_destructive s)
  pure (IdxFile.new (IdxFilePart.Filler bom :: parts))

/-- The in-order list of `Timestamp` parts of an `.idx` file (the
`filter_map` at the start of `IdxFile::get_subtitle_entries`). -/
def IdxFile.timestamps (f : IdxFile) : List TimePoint :=
  f.v.filterMap fun p =>
    match p with
    | IdxFilePart.Timestamp t => some t
    | IdxFilePart.Filler _ => none

/-- Source `IdxFile::get_subtitle_entries`: entry *i* spans from timestamp *i* to
timestamp *i+1*; the last entry ends one minute after the last timestamp. -/
def IdxFile.get_subtitle_entries (f : IdxFile) : List SubtitleEntry :=
  let timings := f.timestamps
  match timings.getLast? with
  | some last_timing =>
    (timings.zip
        (timings.drop 1 ++ [timePointAddDelta last_timing (TimeDelta.from_mins 1)])).map
      (fun tt => SubtitleEntry.fromTimeSpan (TimeSpan.new tt.1 tt.2))
  | none => []

/-- The loop of `IdxFile::update_subtitle_entries`: walks the parts with a
counter starting at 0 and writes `ts[count - 1].timespan.start` into each
`Timestamp` part before incrementing.  For the first timestamp `count - 1`
underflows (`usize`), and an out-of-range index panics as well — both are
modelled by `none`.  Returns the rewritten parts and the final counter. -/
def Idx.update_go : List IdxFilePart → Nat → List SubtitleEntry →
    Option (List IdxFilePart × Nat)
  | [], count, _ => some ([], count)
  | IdxFilePart.Filler s :: rest, count, ts => do
    let (l, c) ← Idx.update_go rest count ts
    pure (IdxFilePart.Filler s :: l, c)
  | IdxFilePart.Timestamp _ :: rest, count, ts =>
    if count = 0 then none
    else
      match ts.get? (count - 1) with
      | none => none
      | some e => do
        let (l, c) ← Idx.update_go rest (count + 1) ts
        pure (IdxFilePart.Timestamp e.timespan.start :: l, c)

/-- Source `IdxFile::update_subtitle_entries`, with the trailing
`assert_eq!(count, ts.len())` modelled as a `none` result on mismatch. -/
def IdxFile.update_subtitle_entries (f : IdxFile) (ts : List SubtitleEntry) :
    Option IdxFile := do
  let (v2, count) ← Idx.update_go f.v 0 ts
  if count = ts.length then pure ⟨v2⟩ else none

-- ////////////////////////////////////////////////////////////////////////
-- src/formats/srt.rs

/-- Source `enum SrtFilePart`. -/
inductive SrtFilePart where
  | Filler (s : Str)
  | TimespanBegin (t : TimePoint)
  | TimespanEnd (t : TimePoint)
  | Index (i : Int)
  | Dialog (s : Str)
deriving DecidableEq, Repr

/-- The filler-extracting closure used by `SrtFile::new`. -/
def SrtFilePart.fillerText : SrtFilePart → Option Str
  | SrtFilePart.Filler t => some t
  | _ => none

/-- The dialog-extracting closure used by `SrtFile::squash_dialog_lines`. -/
def SrtFilePart.dialogText : SrtFilePart → Option Str
  | SrtFilePart.Dialog t => some t
  | _ => none

/-- Source `enum SrtParserState`. -/
inductive SrtParserState where
  | Emptyline
  | Index
  | Timing
  | Dialog
deriving DecidableEq, Repr

/-- Source `pub struct SrtFile`. -/
structure SrtFile where
  v : List SrtFilePart
deriving DecidableEq, Repr

/-- Source `SrtFile::parse_timestamp`: `H:MM:SS,mmm`
(`number_i64, ':', number_i64, ':', number_i64, ',', number_i64`),
returning the remaining input (no `eof` here). -/
def Srt.parse_timestamp (s : Str) : Option (TimePoint × Str) := do
  let (h, r1) ← number_i64 s
  let r2 ← token1 ':' r1
  let (m, r3) ← number_i64 r2
  let r4 ← token1 ':' r3
  let (sec, r5) ← number_i64 r4
  let r6 ← token1 ',' r5
  let (ms, r7) ← number_i64 r6
  pure (TimePoint.from_components h m sec ms, r7)

/-- Source `SrtFile::parse_index_line`: `many(ws), number_i64, many(ws), eof`. -/
def Srt.parse_index_line (s : Str) : Option (List SrtFilePart) :=
  let (ws1, r1) := spanWs s
  match number_i64 r1 with
  | none => none
  | some (num, r2) =>
    let (ws2, r3) := spanWs r2
    if r3 = [] then
      some [SrtFilePart.Filler ws1, SrtFilePart.Index num, SrtFilePart.Filler ws2]
    else none

/-- Source `SrtFile::parse_timespan` / `parse_timestamp_line`:
`many(ws), timestamp, many(ws), "-->", many(ws), timestamp, many(ws), eof`. -/
def Srt.parse_timestamp_line (s : Str) : Option (List SrtFilePart) := do
  let (ws1, r1) := spanWs s
  let (t1, r2) ← Srt.parse_timestamp r1
  let (ws2, r3) := spanWs r2
  let r4 ← literal "-->".toList r3
  let (ws3, r5) := spanWs r4
  let (t2, r6) ← Srt.parse_timestamp r5
  let (ws4, r7) := spanWs r6
  if r7 = [] then
    pure [SrtFilePart.Filler ws1, SrtFilePart.TimespanBegin t1, SrtFilePart.Filler ws2,
          SrtFilePart.Filler "-->".toList, SrtFilePart.Filler ws3,
          SrtFilePart.TimespanEnd t2, SrtFilePart.Filler ws4]
  else none

/-- One step of the state machine in `SrtFile::parse_file`
(`next_state_from_emptyline` / `next_state_from_index` /
`next_state_from_timing_or_dialog`). -/
def Srt.next_state (st : SrtParserState) (line : Str) :
    Option (List SrtFilePart × SrtParserState) :=
  match st with
  | SrtParserState.Emptyline =>
    if (rustTrim line).isEmpty then some ([SrtFilePart.Filler line], SrtParserState.Emptyline)
    else (Srt.parse_index_line line).map (fun parts => (parts, SrtParserState.Index))
  | SrtParserState.Index =>
    (Srt.parse_timestamp_line line).map (fun parts => (parts, SrtParserState.Timing))
  | SrtParserState.Timing | SrtParserState.Dialog =>
    if (rustTrim line).isEmpty then some ([SrtFilePart.Filler line], SrtParserState.Emptyline)
    else some ([SrtFilePart.Dialog line], SrtParserState.Dialog)

/-- The per-line loop of `SrtFile::parse_file`: each line's parts followed
by a filler holding the line terminator. -/
def Srt.parse_lines : SrtParserState → List (Str × Str) → Option (List SrtFilePart)
  | _, [] => some []
  | st, (line, newl) :: rest => do
    let (parts, st2) ← Srt.next_state st line
    let tail ← Srt.parse_lines st2 rest
    pure (parts ++ [SrtFilePart.Filler newl] ++ tail)

/-- The squashing loop in `SrtFile::squash_dialog_lines`: merge each
`Dialog, Filler, Dialog` window into a single `Dialog`.  The accumulator
holds the output in reverse (its head is the source's `result` tail). -/
def Srt.squash_go (acc : List SrtFilePart) : List SrtFilePart → List SrtFilePart
  | [] => acc.reverse
  | p :: rest =>
    match acc with
    | prev :: preprev :: accRest =>
      match p, preprev, prev with
      | SrtFilePart.Dialog d2, SrtFilePart.Dialog d1, SrtFilePart.Filler f =>
        Srt.squash_go (SrtFilePart.Dialog (d1 ++ f ++ d2) :: accRest) rest
      | _, _, _ => Srt.squash_go (p :: acc) rest
    | _ => Srt.squash_go (p :: acc) rest

/-- Source `SrtFile::new`: merge fillers, merge consecutive dialogs, then squash
`Dialog → Filler → Dialog` windows. -/
def SrtFile.new (v : List SrtFilePart) : SrtFile :=
  let v1 := dedup_string_parts SrtFilePart.fillerText SrtFilePart.Filler v
  let v2 := dedup_string_parts SrtFilePart.dialogText SrtFilePart.Dialog v1
  ⟨Srt.squash_go [] v2⟩

/-- Source `SrtFile::parse_file` / `parse_from_string`. -/
def SrtFile.parse (i : Str) : Option SrtFile := do
  let (bom, s) := split_bom i
  let parts ← Srt.parse_lines SrtParserState.Emptyline (get_lines_non_destructive s)
  pure (SrtFile.new (SrtFilePart.Filler bom :: parts))

/-- The collecting walk of `SrtFile::get_subtitle_entries_mut`: buffers a
pending start and end time and emits a `(start, end, text)` triple at each
`Dialog` part.  The `assert_eq!`/`expect` contract violations (a second
start or end before a dialog, a dialog without both buffers, or a leftover
buffer at the end) are modelled by `none`. -/
def Srt.entries_walk (sb eb : Option TimePoint) :
    List SrtFilePart → Option (List (TimePoint × TimePoint × Str))
  | [] =>
    match sb, eb with
    | none, none => some []
    | _, _ => none
  | SrtFilePart.TimespanBegin t :: rest =>
    match sb with
    | some _ => none
    | none => Srt.entries_walk (some t) eb rest
  | SrtFilePart.TimespanEnd t :: rest =>
    match eb with
    | some _ => none
    | none => Srt.entries_walk sb (some t) rest
  | SrtFilePart.Dialog text :: rest =>
    match sb, eb with
    | some b, some e => (Srt.entries_walk none none rest).map (fun l => (b, e, text) :: l)
    | _, _ => none
  | SrtFilePart.Filler _ :: rest => Srt.entries_walk sb eb rest
  | SrtFilePart.Index _ :: rest => Srt.entries_walk sb eb rest

/-- Source `SrtFile::get_subtitle_entries` (via a clone and
`get_subtitle_entries_mut`). -/
def SrtFile.get_subtitle_entries (f : SrtFile) : Option (List SubtitleEntry) :=
  (Srt.entries_walk none none f.v).map
    (List.map fun bet => SubtitleEntry.new (TimeSpan.new bet.1 bet.2.1) bet.2.2)

/-- The write-back pass of `SrtFile::update_subtitle_entries`: the i-th
collected `(start, end, text)` reference triple belongs to the i-th
`Dialog` part and the unique `TimespanBegin`/`TimespanEnd` before it, so
the zipped write is an index-based rewrite of those parts (text only when
the new entry has a line). -/
def Srt.write_go : List SrtFilePart → List SubtitleEntry → List SrtFilePart
  | [], _ => []
  | SrtFilePart.TimespanBegin _ :: rest, e :: es =>
    SrtFilePart.TimespanBegin e.timespan.start :: Srt.write_go rest (e :: es)
  | SrtFilePart.TimespanEnd _ :: rest, e :: es =>
    SrtFilePart.TimespanEnd e.timespan.«end» :: Srt.write_go rest (e :: es)
  | SrtFilePart.Dialog d :: rest, e :: es =>
    SrtFilePart.Dialog (e.line.getD d) :: Srt.write_go rest es
  | p :: rest, es => p :: Srt.write_go rest es

/-- Source `SrtFile::update_subtitle_entries`: collect the reference triples
(may panic, `none`), `assert_eq!` the lengths (panic on mismatch, `none`),
then write the new values through the references. -/
def SrtFile.update_subtitle_entries (f : SrtFile) (new_entries : List SubtitleEntry) :
    Option SrtFile :=
  match Srt.entries_walk none none f.v with
  | none => none
  | some triples =>
    if triples.length = new_entries.length then some ⟨Srt.write_go f.v new_entries⟩
    else none

-- ////////////////////////////////////////////////////////////////////////
-- src/formats/ssa.rs

/-- Strip one trailing carriage return (used by `str::lines`). -/
def stripCr (l : Str) : Str :=
  if l.getLast? = some '\r' then l.dropLast else l

/-- Rust `str::lines` on the whole input (see `stripCr`). -/
def strLines (s : Str) : List Str :=
  if s.isEmpty then []
  else
    let segs := s.splitOn '\n'
    if s.getLast? = some '\n' then segs.dropLast.map stripCr
    else segs.dropLast.map stripCr ++ [segs.getLastD []]

/-- Source `enum SsaFilePart`. -/
inductive SsaFilePart where
  | Filler (s : Str)
  | TimespanStart (t : TimePoint)
  | TimespanEnd (t : TimePoint)
  | Text (s : Str)
deriving DecidableEq, Repr

/-- The filler-extracting closure used by `SsaFile::new`. -/
def SsaFilePart.fillerText : SsaFilePart → Option Str
  | SsaFilePart.Filler t => some t
  | _ => none

/-- Source `struct SsaFieldsInfo`. -/
structure SsaFieldsInfo where
  start_field_idx : Nat
  end_field_idx : Nat
  text_field_idx : Nat
  num_fields : Nat
deriving DecidableEq, Repr

/-- Source `pub struct SsaFile`. -/
structure SsaFile where
  v : List SsaFilePart
deriving DecidableEq, Repr

/-- The field-scanning loop of `SsaFieldsInfo::new_from_fields_info_line`:
walk the comma-separated field names recording the indices of `Start`,
`End` and `Text`; a duplicate of any of them is an error (`none`). -/
def Ssa.scan_fields (i : Nat) (startIdx endIdx textIdx : Option Nat) :
    List Str → Option (Option Nat × Option Nat × Option Nat)
  | [] => some (startIdx, endIdx, textIdx)
  | f :: rest =>
    let t := rustTrim f
    if t = "Start".toList then
      if startIdx.isSome then none
      else Ssa.scan_fields (i + 1) (some i) endIdx textIdx rest
    else if t = "End".toList then
      if endIdx.isSome then none
      else Ssa.scan_fields (i + 1) startIdx (some i) textIdx rest
    else if t = "Text".toList then
      if textIdx.isSome then none
      else Ssa.scan_fields (i + 1) startIdx endIdx (some i) rest
    else Ssa.scan_fields (i + 1) startIdx endIdx textIdx rest

/-- Source `SsaFieldsInfo::new_from_fields_info_line`.  The entry `assert!` that
the line starts with `Format:` and the missing-field / duplicate-field /
`Text`-not-last errors are all modelled by `none`. -/
def SsaFieldsInfo.new_from_fields_info_line (s : Str) : Option SsaFieldsInfo := do
  if ¬ startsWith "Format:".toList s then none
  else
    let field_info := s.drop "Format:".toList.length
    let fields := field_info.splitOn ','
    let num_fields := fields.length
    let (startIdx, endIdx, textIdx) ← Ssa.scan_fields 0 none none none fields
    let text2 ← textIdx
    if text2 ≠ num_fields - 1 then none
    else do
      let st ← startIdx
      let en ← endIdx
      pure ⟨st, en, text2, num_fields⟩

/-- The loop of `SsaFile::get_format_info`: scan `s.lines()` tracking the
current `[Section]`, and return the first line in the `Events` section
whose trimmed text starts with `Format:`. -/
def Ssa.get_format_info_go (sec : Option Str) : List Str → Option Str
  | [] => none
  | line :: rest =>
    let t := rustTrim line
    let sec2 :=
      if t.head? = some '[' ∧ t.getLast? = some ']' then some ((t.drop 1).dropLast)
      else sec
    if sec2 = some "Events".toList ∧ startsWith "Format:".toList t then some line
    else Ssa.get_format_info_go sec2 rest

/-- Source `SsaFile::get_format_info`. -/
def Ssa.get_format_info (s : Str) : Option Str :=
  Ssa.get_format_info_go none (strLines s)

/-- Source `SsaFile::parse_timepoint`: `H:MM:SS.cc` (centiseconds; a `:` is also
accepted before the last component), scaled to milliseconds by ×10. -/
def Ssa.parse_timepoint (s : Str) : Option TimePoint := do
  let (h, r1) ← number_i64 s
  let r2 ← token1 ':' r1
  let (m, r3) ← number_i64 r2
  let r4 ← token1 ':' r3
  let (sec, r5) ← number_i64 r4
  let r6 ← (token1 '.' r5).orElse (fun _ => token1 ':' r5)
  let (ms, r7) ← number_i64 r6
  if r7 = [] then pure (TimePoint.from_components h m sec (ms * 10)) else none

/-- Source `combine`'s `count(n, (many(none_of(",")), token(',')))` in
`SsaFile::parse_dialog_line`: parse up to `n` comma-terminated cells.  If
the item parser fails after consuming input (non-comma characters remain
but no comma follows), the whole parse fails; if it fails without
consuming (the rest is empty), `count` stops early and succeeds. -/
def Ssa.count_fields : Nat → Str → Option (List (Str × Char) × Str)
  | 0, s => some ([], s)
  | n + 1, s =>
    let field := s.takeWhile (· ≠ ',')
    let rest := s.dropWhile (· ≠ ',')
    match rest with
    | ',' :: r => do
      let (items, r2) ← Ssa.count_fields n r
      pure ((field, ',') :: items, r2)
    | _ => if field.isEmpty then some ([], s) else none

/-- Source `SsaFile::parse_fields`: map each collected cell, by its index in the
field order, to a semantic part (start / end / text / filler), keeping the
surrounding whitespace and the separating comma as fillers. -/
def Ssa.parse_fields (fi : SsaFieldsInfo) (i : Nat) :
    List (Str × Char) → Option (List SsaFilePart)
  | [] => some []
  | (field, sep) :: rest => do
    let (begin1, mid, end1) := trim_non_destructive field
    let part ←
      if i = fi.start_field_idx then
        (Ssa.parse_timepoint mid).map SsaFilePart.TimespanStart
      else if i = fi.end_field_idx then
        (Ssa.parse_timepoint mid).map SsaFilePart.TimespanEnd
      else if i = fi.text_field_idx then
        some (SsaFilePart.Text mid)
      else
        some (SsaFilePart.Filler mid)
    let tail ← Ssa.parse_fields fi (i + 1) rest
    pure ([SsaFilePart.Filler begin1, part, SsaFilePart.Filler end1,
           SsaFilePart.Filler [sep]] ++ tail)

/-- Source `SsaFile::parse_dialog_line`:
`many(ws), "Dialogue:", many(ws), count(num_fields - 1, cell), many(any)`. -/
def Ssa.parse_dialog_line (fi : SsaFieldsInfo) (line : Str) :
    Option (List SsaFilePart) := do
  let (ws1, r1) := spanWs line
  let r2 ← literal "Dialogue:".toList r1
  let (ws2, r3) := spanWs r2
  let (cells, text) ← Ssa.count_fields (fi.num_fields - 1) r3
  let fieldParts ← Ssa.parse_fields fi 0 cells
  pure ([SsaFilePart.Filler ws1, SsaFilePart.Filler "Dialogue:".toList,
         SsaFilePart.Filler ws2] ++ fieldParts ++ [SsaFilePart.Text text])

/-- The loop of `SsaFile::parse_dialog_lines`.  Section-header lines and
lines outside the `Events` section (or without the `Dialogue:` prefix)
become fillers; note that the source pushes a hard-coded
`Filler("\n".to_string())` for those lines — not the line's actual
terminator `newl`, which is pushed only after dialogue lines. -/
def Ssa.parse_dialog_lines_go (fi : SsaFieldsInfo) (sec : Option Str) :
    List (Str × Str) → Option (List SsaFilePart)
  | [] => some []
  | (line, newl) :: rest =>
    let t := rustTrim line
    if t.head? = some '[' ∧ t.getLast? = some ']' then do
      let tail ← Ssa.parse_dialog_lines_go fi (some ((t.drop 1).dropLast)) rest
      pure ([SsaFilePart.Filler line, SsaFilePart.Filler ['\n']] ++ tail)
    else if sec ≠ some "Events".toList ∨ ¬ startsWith "Dialogue:".toList t then do
      let tail ← Ssa.parse_dialog_lines_go fi sec rest
      pure ([SsaFilePart.Filler line, SsaFilePart.Filler ['\n']] ++ tail)
    else do
      let parts ← Ssa.parse_dialog_line fi line
      let tail ← Ssa.parse_dialog_lines_go fi sec rest
      pure (parts ++ [SsaFilePart.Filler newl] ++ tail)

/-- Source `SsaFile::parse_dialog_lines`. -/
def Ssa.parse_dialog_lines (fi : SsaFieldsInfo) (s : Str) :
    Option (List SsaFilePart) :=
  Ssa.parse_dialog_lines_go fi none (get_lines_non_destructive s)

/-- Source `SsaFile::new` (merges consecutive fillers). -/
def SsaFile.new (v : List SsaFilePart) : SsaFile :=
  ⟨dedup_string_parts SsaFilePart.fillerText SsaFilePart.Filler v⟩

/-- Source `SsaFile::parse_inner` / `SsaFile::parse`. -/
def SsaFile.parse (i : Str) : Option SsaFile := do
  let (bom, s) := split_bom i
  let field_info_line ← Ssa.get_format_info s
  let fi ← SsaFieldsInfo.new_from_fields_info_line field_info_line
  let parts ← Ssa.parse_dialog_lines fi s
  pure (SsaFile.new (SsaFilePart.Filler bom :: parts))

/-- The collecting walk of `SsaFile::get_subtitle_entries_mut` (same
buffering contract as the SRT one; `assert`/`expect` violations are
`none`). -/
def Ssa.entries_walk (sb eb : Option TimePoint) :
    List SsaFilePart → Option (List (TimePoint × TimePoint × Str))
  | [] =>
    match sb, eb with
    | none, none => some []
    | _, _ => none
  | SsaFilePart.TimespanStart t :: rest =>
    match sb with
    | some _ => none
    | none => Ssa.entries_walk (some t) eb rest
  | SsaFilePart.TimespanEnd t :: rest =>
    match eb with
    | some _ => none
    | none => Ssa.entries_walk sb (some t) rest
  | SsaFilePart.Text text :: rest =>
    match sb, eb with
    | some b, some e => (Ssa.entries_walk none none rest).map (fun l => (b, e, text) :: l)
    | _, _ => none
  | SsaFilePart.Filler _ :: rest => Ssa.entries_walk sb eb rest

/-- Source `SsaFile::get_subtitle_entries`. -/
def SsaFile.get_subtitle_entries (f : SsaFile) : Option (List SubtitleEntry) :=
  (Ssa.entries_walk none none f.v).map
    (List.map fun bet => SubtitleEntry.new (TimeSpan.new bet.1 bet.2.1) bet.2.2)

/-- The write-back pass of `SsaFile::update_subtitle_entries` (index-based
form of the collected mutable references, as for SRT). -/
def Ssa.write_go : List SsaFilePart → List SubtitleEntry → List SsaFilePart
  | [], _ => []
  | SsaFilePart.TimespanStart _ :: rest, e :: es =>
    SsaFilePart.TimespanStart e.timespan.start :: Ssa.write_go rest (e :: es)
  | SsaFilePart.TimespanEnd _ :: rest, e :: es =>
    SsaFilePart.TimespanEnd e.timespan.«end» :: Ssa.write_go rest (e :: es)
  | SsaFilePart.Text d :: rest, e :: es =>
    SsaFilePart.Text (e.line.getD d) :: Ssa.write_go rest es
  | p :: rest, es => p :: Ssa.write_go rest es

/-- Source `SsaFile::update_subtitle_entries`. -/
def SsaFile.update_subtitle_entries (f : SsaFile) (new_entries : List SubtitleEntry) :
    Option SsaFile :=
  match Ssa.entries_walk none none f.v with
  | none => none
  | some triples =>
    if triples.length = new_entries.length then some ⟨Ssa.write_go f.v new_entries⟩
    else none

/-- Rust `i64::to_string`. -/
def intToStr (n : Int) : Str := (toString n).toList

/-- Rust's `{:02}` format: zero-pad to (at least) two characters. -/
def pad2 (n : Int) : Str :=
  let s := intToStr n
  if s.length < 2 then '0' :: s else s

/-- The `fn_timing_to_string` closure in `SsaFile::to_data`:
`"{}{}:{:02}:{:02}.{:02}"` over hours, minute/second/centisecond
components of the absolute value, with a leading `-` when negative. -/
def Ssa.timing_to_string (t : TimePoint) : Str :=
  let p := if t.msecs < 0 then t.neg else t
  (if t.msecs < 0 then ['-'] else []) ++
    intToStr p.hours ++ [':'] ++ pad2 p.mins_comp ++ [':'] ++
    pad2 p.secs_comp ++ ['.'] ++ pad2 p.csecs_comp

/-- Source `SsaFile::to_data` (the result is a UTF-8 string; byte identity of the
round trip is stated as character-sequence identity). -/
def SsaFile.to_data (f : SsaFile) : Str :=
  (f.v.map fun part =>
    match part with
    | SsaFilePart.Filler t => t
    | SsaFilePart.Text t => t
    | SsaFilePart.TimespanStart start => Ssa.timing_to_string start
    | SsaFilePart.TimespanEnd e => Ssa.timing_to_string e).flatten

-- ////////////////////////////////////////////////////////////////////////
-- src/formats/microdvd.rs

/-- Rust's `as i64` cast of an `f64`: truncation toward zero.  The `f64`
arithmetic of the source is modelled with exact rationals. -/
def ratTrunc (q : ℚ) : Int := if 0 ≤ q then ⌊q⌋ else ⌈q⌉

/-- Source `MdvdFormatting::lowercase_first_char` (single-character simple case
folding; the inputs of interest are ASCII). -/
def lowercase_first_char (s : Str) : Str :=
  match s with
  | [] => []
  | c :: r => c.toLower :: r

/-- Source `enum MdvdFormatting` (stores the tag with a lowercased first char). -/
inductive MdvdFormatting where
  | Unknown (s : Str)
deriving DecidableEq, Repr

/-- Source `impl From<String> for MdvdFormatting`. -/
def MdvdFormatting.fromString (f : Str) : MdvdFormatting :=
  MdvdFormatting.Unknown (lowercase_first_char f)

/-- Source `struct MdvdLine`. -/
structure MdvdLine where
  start_frame : Int
  end_frame : Int
  formatting : List MdvdFormatting
  text : Str
deriving DecidableEq, Repr

/-- Source `pub struct MdvdFile` (fps as exact rational). -/
structure MdvdFile where
  fps : ℚ
  v : List MdvdLine
deriving DecidableEq, Repr

/-- Source `MdvdLine::to_subtitle_entry`:
`(self.start_frame as f64 * 1000.0 / fps) as i64` for each frame bound. -/
def MdvdLine.to_subtitle_entry (l : MdvdLine) (fps : ℚ) : SubtitleEntry :=
  { timespan :=
      TimeSpan.new
        (TimePoint.from_msecs (ratTrunc ((l.start_frame : ℚ) * 1000 / fps)))
        (TimePoint.from_msecs (ratTrunc ((l.end_frame : ℚ) * 1000 / fps))),
    line := some l.text }

/-- Source `MdvdFile::get_subtitle_entries`. -/
def MdvdFile.get_subtitle_entries (f : MdvdFile) : List SubtitleEntry :=
  f.v.map (fun line => line.to_subtitle_entry f.fps)

/-- Source `MdvdFile::update_subtitle_entries`: the leading `assert_eq!` on the
lengths is modelled by `none`; each line then receives
`(timespan.start.secs_f64() * fps) as i64` (and likewise for the end) as
its new frame bounds, and the new text when a line is present. -/
def MdvdFile.update_subtitle_entries (f : MdvdFile) (new_entries : List SubtitleEntry) :
    Option MdvdFile :=
  if new_entries.length ≠ f.v.length then none
  else
    some
      { fps := f.fps,
        v := (f.v.zip new_entries).map fun le =>
          { le.1 with
            start_frame := ratTrunc ((le.2.timespan.start.msecs : ℚ) / 1000 * f.fps),
            end_frame := ratTrunc ((le.2.timespan.«end».msecs : ℚ) / 1000 * f.fps),
            text := le.2.line.getD le.1.text } }

-- ////////////////////////////////////////////////////////////////////////
-- src/formats/mod.rs

/-- Source `pub enum SubtitleFormat`. -/
inductive SubtitleFormat where
  | SubRip
  | SubStationAlpha
  | VobSubIdx
  | VobSubSub
  | MicroDVD
deriving DecidableEq, Repr

/-- Source `formats::get_subtitle_format_by_extension` (extensions modelled as
strings; `.sub` is ambiguous and maps to `None`). -/
def get_subtitle_format_by_extension (extension : Option Str) : Option SubtitleFormat :=
  if extension = some "srt".toList then some SubtitleFormat.SubRip
  else if extension = some "ssa".toList ∨ extension = some "ass".toList then
    some SubtitleFormat.SubStationAlpha
  else if extension = some "idx".toList then some SubtitleFormat.VobSubIdx
  else none

/-- Source `formats::is_valid_extension_for_subtitle_format` — note the source's
`SubStationAlpha` arm compares the extension against `"srt"` twice. -/
def is_valid_extension_for_subtitle_format (extension : Option Str)
    (format : SubtitleFormat) : Bool :=
  match format with
  | SubtitleFormat.SubRip => extension = some "srt".toList
  | SubtitleFormat.SubStationAlpha =>
    extension = some "srt".toList || extension = some "srt".toList
  | SubtitleFormat.VobSubIdx => extension = some "idx".toList
  | SubtitleFormat.VobSubSub => extension = some "sub".toList
  | SubtitleFormat.MicroDVD => extension = some "sub".toList

-- ////////////////////////////////////////////////////////////////////////
-- Order-preservation projections (used to state source-order claims)

/-- The dialog texts of an SRT part sequence, in source order. -/
def Srt.dialogTexts (v : List SrtFilePart) : List Str :=
  v.filterMap SrtFilePart.dialogText

/-- The start timestamps of an SRT part sequence, in source order. -/
def Srt.beginTimes (v : List SrtFilePart) : List TimePoint :=
  v.filterMap fun p =>
    match p with
    | SrtFilePart.TimespanBegin t => some t
    | _ => none

/-- The end timestamps of an SRT part sequence, in source order. -/
def Srt.endTimes (v : List SrtFilePart) : List TimePoint :=
  v.filterMap fun p =>
    match p with
    | SrtFilePart.TimespanEnd t => some t
    | _ => none

-- ////////////////////////////////////////////////////////////////////////
-- ////////////////////////////////////////////////////////////////////////
-- Theorems
-- ////////////////////////////////////////////////////////////////////////
-- ////////////////////////////////////////////////////////////////////////

/-- C1: the spec claims `serialize(parse(x))` is byte-identical to `x` for
every valid text-format input whose fillers are already maximally merged.
This fails for the SubStation Alpha parser: `parse_dialog_lines` pushes a
hard-coded `"\n"` filler instead of the line's actual terminator for
non-dialogue lines, so a well-formed `.ssa` file with CRLF line endings
(all of whose parts are fillers, hence trivially maximally merged)
re-serializes with LF endings.  This theorem evaluates the embedded parser
and serializer at such an input. -/
theorem c1_ssa_round_trip_not_byte_identical :
    (SsaFile.parse "[Events]\r\nFormat: Start, End, Text\r\n".toList).isSome = true ∧
    (SsaFile.parse "[Events]\r\nFormat: Start, End, Text\r\n".toList).map SsaFile.to_data =
      some "[Events]\nFormat: Start, End, Text\n".toList ∧
    "[Events]\nFormat: Start, End, Text\n".toList ≠
      "[Events]\r\nFormat: Start, End, Text\r\n".toList := by
  refine ⟨rfl, rfl, by decide⟩

/-- C2: the spec claims that writing back an unchanged entry list always
succeeds.  For the `.idx` format it panics instead: the update loop reads
`ts[count - 1]` with `count` still `0` at the first timestamp part
(a `usize` underflow / out-of-bounds index).  This theorem evaluates the
embedded code on a one-timestamp `.idx` file: the parse succeeds, the file
has exactly one entry, and updating with that same entry list panics
(`none`). -/
theorem c2_idx_update_unchanged_entries_panics :
    (IdxFile.parse "timestamp: 00:00:01:000\n".toList).isSome = true ∧
    (IdxFile.parse "timestamp: 00:00:01:000\n".toList).map
        (fun f => (IdxFile.get_subtitle_entries f).length) = some 1 ∧
    (IdxFile.parse "timestamp: 00:00:01:000\n".toList).bind
        (fun f => IdxFile.update_subtitle_entries f (IdxFile.get_subtitle_entries f)) =
      none := by
  refine ⟨rfl, rfl, rfl⟩

/-- C6: the spec claims `x -= d` agrees with the binary subtraction
`x - d` (both leaving `x.msecs() - d.msecs()`).  The binary `Sub` is
correct, but `impl SubAssign for Timing` is implemented with `+=`, so the
compound assignment adds: `5ms -= 3ms` yields `8ms`, not `2ms`.  The
`TimePoint`/`TimeDelta` compound assignments delegate to it and inherit
the defect. -/
theorem c6_sub_assign_adds_instead_of_subtracting :
    (timePointSubDelta (TimePoint.from_msecs 5) (TimeDelta.from_msecs 3)).msecs =
      (TimePoint.from_msecs 5).msecs - (TimeDelta.from_msecs 3).msecs ∧
    (timePointSubAssignDelta (TimePoint.from_msecs 5) (TimeDelta.from_msecs 3)).msecs = 8 ∧
    (timeDeltaSubAssignDelta (TimeDelta.from_msecs 5) (TimeDelta.from_msecs 3)).msecs = 8 ∧
    (TimePoint.from_msecs 5).msecs - (TimeDelta.from_msecs 3).msecs = 2 := by
  refine ⟨rfl, rfl, rfl, rfl⟩

/-- C8: `from_components(h,m,s,ms).msecs() = ms + 1000*(s + 60*(m + 60*h))`
for all integers, with no normalization or clamping; in particular
`from_components(0,0,3,-2000) = from_components(0,0,1,0)`.  Holds for both
generated time types. -/
theorem c8_from_components_folds_components :
    (∀ h m s ms : Int,
      (TimePoint.from_components h m s ms).msecs = ms + 1000 * (s + 60 * (m + 60 * h)) ∧
      (TimeDelta.from_components h m s ms).msecs = ms + 1000 * (s + 60 * (m + 60 * h))) ∧
    TimePoint.from_components 0 0 3 (-2000) = TimePoint.from_components 0 0 1 0 ∧
    TimeDelta.from_components 0 0 3 (-2000) = TimeDelta.from_components 0 0 1 0 := by
  refine ⟨fun h m s ms => ⟨rfl, rfl⟩, by decide, by decide⟩

/-- C10: the claim that `get_subtitle_format_by_extension` and
`is_valid_extension_for_subtitle_format` are mutually consistent fails:
the `SubStationAlpha` arm of the latter compares the extension against
`"srt"` twice (instead of `"ssa"`/`"ass"`), so the extensions `"ssa"` and
`"ass"` are mapped to the SubStation Alpha format by the former but
rejected by the latter. -/
theorem c10_extension_functions_inconsistent_on_ssa :
    get_subtitle_format_by_extension (some "ssa".toList) =
      some SubtitleFormat.SubStationAlpha ∧
    is_valid_extension_for_subtitle_format (some "ssa".toList)
      SubtitleFormat.SubStationAlpha = false ∧
    get_subtitle_format_by_extension (some "ass".toList) =
      some SubtitleFormat.SubStationAlpha ∧
    is_valid_extension_for_subtitle_format (some "ass".toList)
      SubtitleFormat.SubStationAlpha = false := by
  refine ⟨by decide, by decide, by decide, by decide⟩

-- Helper lemmas about the `.idx` update loop ------------------------------

/-- With the counter still at `0`, the update loop panics at the first
`Timestamp` part (`ts[count - 1]` with `count == 0`). -/
theorem Idx.update_go_none_of_mem (parts : List IdxFilePart) (ts : List SubtitleEntry)
    (h : ∃ t, IdxFilePart.Timestamp t ∈ parts) :
    Idx.update_go parts 0 ts = none := by
  induction parts with
  | nil => obtain ⟨t, ht⟩ := h; simp at ht
  | cons p rest ih =>
    cases p with
    | Filler s =>
      have h2 : ∃ t, IdxFilePart.Timestamp t ∈ rest := by
        obtain ⟨t, ht⟩ := h
        rcases List.mem_cons.mp ht with h3 | h3
        · exact absurd h3 (by simp)
        · exact ⟨t, h3⟩
      simp [Idx.update_go, ih h2]
    | Timestamp t => simp [Idx.update_go]

/-- On a part list without any `Timestamp` the update loop is the
identity and leaves the counter unchanged. -/
theorem Idx.update_go_of_no_timestamp (parts : List IdxFilePart) (ts : List SubtitleEntry)
    (c : Nat) (h : ∀ t, IdxFilePart.Timestamp t ∉ parts) :
    Idx.update_go parts c ts = some (parts, c) := by
  induction parts generalizing c with
  | nil => simp [Idx.update_go]
  | cons p rest ih =>
    cases p with
    | Filler s =>
      have h2 : ∀ t, IdxFilePart.Timestamp t ∉ rest := fun t ht =>
        h t (List.mem_cons_of_mem _ ht)
      simp [Idx.update_go, ih c h2]
    | Timestamp t => exact absurd (List.mem_cons_self _ _) (h t)

/-- A nonempty timestamp list exhibits a `Timestamp` part. -/
theorem Idx.exists_timestamp_of_ne_nil (f : IdxFile) (h : f.timestamps ≠ []) :
    ∃ t, IdxFilePart.Timestamp t ∈ f.v := by
  rw [Ne, IdxFile.timestamps, List.filterMap_eq_nil_iff] at h
  push_neg at h
  obtain ⟨p, hp, hne⟩ := h
  cases p with
  | Filler s => exact absurd rfl hne
  | Timestamp t => exact ⟨t, hp⟩

/-- Source `IdxFile::update_subtitle_entries` panics (for any entry list) as soon
as the file holds at least one timestamp field, because the loop indexes
`ts[count - 1]` with `count` still `0` at the first timestamp. -/
theorem Idx.update_none_of_timestamps_ne_nil (f : IdxFile) (es : List SubtitleEntry)
    (h : f.timestamps ≠ []) :
    IdxFile.update_subtitle_entries f es = none := by
  obtain ⟨t, ht⟩ := Idx.exists_timestamp_of_ne_nil f h
  unfold IdxFile.update_subtitle_entries
  simp [Idx.update_go_none_of_mem f.v es ⟨t, ht⟩]

/-- Source `.idx` files have exactly as many entries as timestamp fields. -/
theorem IdxFile.length_get_subtitle_entries (f : IdxFile) :
    (IdxFile.get_subtitle_entries f).length = f.timestamps.length := by
  unfold IdxFile.get_subtitle_entries
  cases hL : f.timestamps.getLast? with
  | none => simp [List.getLast?_eq_none_iff.mp hL]
  | some L =>
    have hne : f.timestamps ≠ [] := by
      intro h0
      rw [h0] at hL
      simp at hL
    have hlen : 0 < f.timestamps.length := List.length_pos.mpr hne
    simp only [hL]
    simp only [List.length_map, List.length_zip, List.length_append,
      List.length_drop, List.length_singleton]
    omega

/-- C3: the spec says that with a matching entry count,
`IdxFile::update_subtitle_entries` succeeds and overwrites the i-th
timestamp with the i-th entry's start time.  Instead, the loop body reads
`ts[count - 1]` before incrementing `count`, so at the file's first
timestamp it indexes `ts` at `0usize - 1` — an underflow / out-of-bounds
panic.  Hence the update panics on every `.idx` file with at least one
timestamp field, for every entry list (matching length included). -/
theorem c3_idx_update_panics_on_any_timestamp (f : IdxFile) (es : List SubtitleEntry)
    (h : f.timestamps ≠ []) :
    IdxFile.update_subtitle_entries f es = none :=
  Idx.update_none_of_timestamps_ne_nil f es h

/-- Witness for C3 at a one-timestamp file and a length-matching
(one-entry) list. -/
theorem c3_idx_update_panics_on_any_timestamp_witness :
    (IdxFile.mk [IdxFilePart.Timestamp (TimePoint.from_msecs 0)]).timestamps ≠ [] ∧
    IdxFile.update_subtitle_entries
        (IdxFile.mk [IdxFilePart.Timestamp (TimePoint.from_msecs 0)])
        [SubtitleEntry.fromTimeSpan
          (TimeSpan.new (TimePoint.from_msecs 0) (TimePoint.from_msecs 60000))] = none :=
  ⟨by decide, c3_idx_update_panics_on_any_timestamp _ _ (by decide)⟩

/-- C5: for every text format, calling `update_subtitle_entries` with an
entry list whose length differs from the current entry count fails fast
(assertion panic, `none`) instead of returning normally.  For SRT and SSA
the current entries are the triples collected by the reference walk (which
succeeds on every parsed file); for MicroDVD the entry count is the line
count; for `.idx` it is the timestamp count (`get_subtitle_entries`
length). -/
theorem c5_update_length_mismatch_is_fatal :
    (∀ (f : SrtFile) (triples : List (TimePoint × TimePoint × Str))
        (es : List SubtitleEntry),
        Srt.entries_walk none none f.v = some triples →
        es.length ≠ triples.length →
        SrtFile.update_subtitle_entries f es = none) ∧
    (∀ (f : SsaFile) (triples : List (TimePoint × TimePoint × Str))
        (es : List SubtitleEntry),
        Ssa.entries_walk none none f.v = some triples →
        es.length ≠ triples.length →
        SsaFile.update_subtitle_entries f es = none) ∧
    (∀ (f : MdvdFile) (es : List SubtitleEntry),
        es.length ≠ f.v.length →
        MdvdFile.update_subtitle_entries f es = none) ∧
    (∀ (f : IdxFile) (es : List SubtitleEntry),
        es.length ≠ (IdxFile.get_subtitle_entries f).length →
        IdxFile.update_subtitle_entries f es = none) := by
  refine ⟨?_, ?_, ?_, ?_⟩
  · intro f triples es hw hl
    unfold SrtFile.update_subtitle_entries
    rw [hw]
    exact if_neg (fun hh => hl hh.symm)
  · intro f triples es hw hl
    unfold SsaFile.update_subtitle_entries
    rw [hw]
    exact if_neg (fun hh => hl hh.symm)
  · intro f es hl
    unfold MdvdFile.update_subtitle_entries
    exact if_pos hl
  · intro f es hl
    by_cases hts : f.timestamps = []
    · have hnone : ∀ t, IdxFilePart.Timestamp t ∉ f.v := by
        intro t ht
        have hmem : t ∈ f.timestamps := List.mem_filterMap.mpr ⟨_, ht, rfl⟩
        rw [hts] at hmem
        simp at hmem
      have hlen0 : (IdxFile.get_subtitle_entries f).length = 0 := by
        rw [IdxFile.length_get_subtitle_entries, hts]
        rfl
      rw [hlen0] at hl
      unfold IdxFile.update_subtitle_entries
      rw [Idx.update_go_of_no_timestamp f.v es 0 hnone]
      exact if_neg (fun hh => hl hh.symm)
    · exact Idx.update_none_of_timestamps_ne_nil f es hts

/-- Witness for C5: each format's update rejects an empty entry list
against a one-entry file. -/
theorem c5_update_length_mismatch_is_fatal_witness :
    SrtFile.update_subtitle_entries
        (SrtFile.mk [SrtFilePart.TimespanBegin (TimePoint.from_msecs 0),
                     SrtFilePart.TimespanEnd (TimePoint.from_msecs 1000),
                     SrtFilePart.Dialog "a".toList]) [] = none ∧
    SsaFile.update_subtitle_entries
        (SsaFile.mk [SsaFilePart.TimespanStart (TimePoint.from_msecs 0),
                     SsaFilePart.TimespanEnd (TimePoint.from_msecs 1000),
                     SsaFilePart.Text "a".toList]) [] = none ∧
    MdvdFile.update_subtitle_entries
        (MdvdFile.mk 25 [MdvdLine.mk 0 25 [] "a".toList]) [] = none ∧
    IdxFile.update_subtitle_entries
        (IdxFile.mk [IdxFilePart.Timestamp (TimePoint.from_msecs 0)]) [] = none :=
  ⟨c5_update_length_mismatch_is_fatal.1 _
      [(TimePoint.from_msecs 0, TimePoint.from_msecs 1000, "a".toList)] []
      (by decide) (by decide),
   c5_update_length_mismatch_is_fatal.2.1 _
      [(TimePoint.from_msecs 0, TimePoint.from_msecs 1000, "a".toList)] []
      (by decide) (by decide),
   c5_update_length_mismatch_is_fatal.2.2.1 _ [] (by decide),
   c5_update_length_mismatch_is_fatal.2.2.2 _ [] (by decide)⟩

/-- Source `get? i = some a` implies the index is in range. -/
theorem get?_lt_length {α : Type} {l : List α} {i : Nat} {a : α}
    (h : l.get? i = some a) : i < l.length := by
  rw [List.get?_eq_getElem?] at h
  exact (List.getElem?_eq_some.mp h).1

/-- C9: for a parsed `.idx` file whose timestamp fields in order are
`t[0..n-1]`, `get_subtitle_entries` returns exactly `n` entries (in
particular an empty list, not an error, when `n = 0`); entry `i` starts at
`t[i]`, ends at `t[i+1]` when `i+1 < n`, and the last entry ends at
`t[n-1]` plus one minute (60000 ms).  Entries carry no text. -/
theorem c9_idx_entry_spans (f : IdxFile) :
    ((IdxFile.get_subtitle_entries f).length = f.timestamps.length) ∧
    (f.timestamps = [] → IdxFile.get_subtitle_entries f = []) ∧
    (∀ (i : Nat) (a : TimePoint), f.timestamps.get? i = some a →
      (∀ (b : TimePoint), f.timestamps.get? (i + 1) = some b →
        (IdxFile.get_subtitle_entries f).get? i =
          some (SubtitleEntry.fromTimeSpan (TimeSpan.new a b))) ∧
      (i + 1 = f.timestamps.length →
        (IdxFile.get_subtitle_entries f).get? i =
          some (SubtitleEntry.fromTimeSpan
            (TimeSpan.new a (timePointAddDelta a (TimeDelta.from_mins 1)))))) := by
  refine ⟨IdxFile.length_get_subtitle_entries f, ?_, ?_⟩
  · intro h0
    unfold IdxFile.get_subtitle_entries
    simp [h0]
  · intro i a ha
    have hne : f.timestamps ≠ [] := by
      intro h0
      rw [h0] at ha
      simp at ha
    obtain ⟨L, hL⟩ : ∃ L, f.timestamps.getLast? = some L := by
      cases hLL : f.timestamps.getLast? with
      | none => exact absurd (List.getLast?_eq_none_iff.mp hLL) hne
      | some L => exact ⟨L, rfl⟩
    have hi : i < f.timestamps.length := get?_lt_length ha
    unfold IdxFile.get_subtitle_entries
    simp only [hL]
    constructor
    · intro b hb
      have hib : i + 1 < f.timestamps.length := get?_lt_length hb
      have hw : (f.timestamps.drop 1 ++
          [timePointAddDelta L (TimeDelta.from_mins 1)]).get? i = some b := by
        rw [List.get?_append (by simpa using by omega : i < (f.timestamps.drop 1).length)]
        rw [List.get?_drop]
        simpa [Nat.add_comm] using hb
      have hz : (f.timestamps.zip (f.timestamps.drop 1 ++
          [timePointAddDelta L (TimeDelta.from_mins 1)])).get? i =
          some (a, b) := (List.get?_zip_eq_some _ _ _ _).mpr ⟨ha, hw⟩
      rw [List.get?_map, hz]
      rfl
    · intro hlast
      have haL : a = L := by
        have hgl : f.timestamps.get? i = f.timestamps.getLast? := by
          rw [List.getLast?_eq_getElem?, List.get?_eq_getElem?]
          congr 1
          omega
        rw [hgl, hL] at ha
        exact (Option.some.injEq _ _ ▸ ha).symm
      have hw : (f.timestamps.drop 1 ++
          [timePointAddDelta L (TimeDelta.from_mins 1)]).get? i =
          some (timePointAddDelta L (TimeDelta.from_mins 1)) := by
        have hlen1 : i = (f.timestamps.drop 1).length := by
          simp only [List.length_drop]
          omega
        rw [List.get?_eq_getElem?, hlen1, List.getElem?_append_right (le_refl _)]
        simp
      have hz : (f.timestamps.zip (f.timestamps.drop 1 ++
          [timePointAddDelta L (TimeDelta.from_mins 1)])).get? i =
          some (a, timePointAddDelta L (TimeDelta.from_mins 1)) :=
        (List.get?_zip_eq_some _ _ _ _).mpr ⟨ha, hw⟩
      rw [List.get?_map, hz, haL]
      rfl

/-- Witness for C9 at a concrete two-timestamp file: two entries, first
spanning `[1000, 5000)`, last spanning `[5000, 65000)`. -/
theorem c9_idx_entry_spans_witness :
    ((IdxFile.mk [IdxFilePart.Timestamp (TimePoint.from_msecs 1000),
                  IdxFilePart.Timestamp (TimePoint.from_msecs 5000)]).get_subtitle_entries).get? 0 =
      some (SubtitleEntry.fromTimeSpan
        (TimeSpan.new (TimePoint.from_msecs 1000) (TimePoint.from_msecs 5000))) ∧
    ((IdxFile.mk [IdxFilePart.Timestamp (TimePoint.from_msecs 1000),
                  IdxFilePart.Timestamp (TimePoint.from_msecs 5000)]).get_subtitle_entries).get? 1 =
      some (SubtitleEntry.fromTimeSpan
        (TimeSpan.new (TimePoint.from_msecs 5000)
          (timePointAddDelta (TimePoint.from_msecs 5000) (TimeDelta.from_mins 1)))) ∧
    (IdxFile.mk (List.nil (α := IdxFilePart))).get_subtitle_entries = [] :=
  ⟨((c9_idx_entry_spans _).2.2 0 _ (by decide)).1 _ (by decide),
   ((c9_idx_entry_spans _).2.2 1 _ (by decide)).2 (by decide),
   (c9_idx_entry_spans _).2.1 (by decide)⟩

-- C4: srt get_subtitle_entries -------------------------------------------

/-- Invariant of the SRT reference-collecting walk: when it succeeds, the
projections of the collected triples are exactly the in-source-order
dialog texts, begin times (preceded by a buffered one, if any) and end
times. -/
theorem Srt.entries_walk_proj (v : List SrtFilePart) :
    ∀ (sb eb : Option TimePoint) (l : List (TimePoint × TimePoint × Str)),
      Srt.entries_walk sb eb v = some l →
      l.map (fun x => x.2.2) = Srt.dialogTexts v ∧
      l.map (fun x => x.1) = sb.toList ++ Srt.beginTimes v ∧
      l.map (fun x => x.2.1) = eb.toList ++ Srt.endTimes v := by
  induction v with
  | nil =>
    intro sb eb l h
    cases sb <;> cases eb <;> simp [Srt.entries_walk] at h
    subst h
    simp [Srt.dialogTexts, Srt.beginTimes, Srt.endTimes]
  | cons p rest ih =>
    intro sb eb l h
    cases p with
    | Filler s =>
      have hr := ih sb eb l (by simpa [Srt.entries_walk] using h)
      simpa [Srt.dialogTexts, Srt.beginTimes, Srt.endTimes,
        SrtFilePart.dialogText] using hr
    | Index n =>
      have hr := ih sb eb l (by simpa [Srt.entries_walk] using h)
      simpa [Srt.dialogTexts, Srt.beginTimes, Srt.endTimes,
        SrtFilePart.dialogText] using hr
    | TimespanBegin t =>
      cases sb with
      | some u => simp [Srt.entries_walk] at h
      | none =>
        have hr := ih (some t) eb l (by simpa [Srt.entries_walk] using h)
        simpa [Srt.dialogTexts, Srt.beginTimes, Srt.endTimes,
          SrtFilePart.dialogText] using hr
    | TimespanEnd t =>
      cases eb with
      | some u => simp [Srt.entries_walk] at h
      | none =>
        have hr := ih sb (some t) l (by simpa [Srt.entries_walk] using h)
        simpa [Srt.dialogTexts, Srt.beginTimes, Srt.endTimes,
          SrtFilePart.dialogText] using hr
    | Dialog s =>
      cases sb with
      | none => simp [Srt.entries_walk] at h
      | some b =>
        cases eb with
        | none => simp [Srt.entries_walk] at h
        | some e =>
          obtain ⟨l', hl', rfl⟩ :
              ∃ l', Srt.entries_walk none none rest = some l' ∧ l = (b, e, s) :: l' := by
            cases hww : Srt.entries_walk none none rest with
            | none => simp [Srt.entries_walk, hww] at h
            | some l' =>
              refine ⟨l', rfl, ?_⟩
              simp [Srt.entries_walk, hww] at h
              exact h.symm
          obtain ⟨h1, h2, h3⟩ := ih none none l' hl'
          simp only [Option.toList, List.nil_append] at h2 h3
          simp [Srt.dialogTexts, Srt.beginTimes, Srt.endTimes,
            SrtFilePart.dialogText, h1, h2, h3]

/-- C4 (counterexample): the claim that `get_subtitle_entries` never
panics on a successfully parsed file is false for SRT.  A file whose
subtitle block has an index line and a timestamp line but no dialog line
parses successfully (the source's own test data contains such files), but
the reference walk then panics (`assert_eq!(startpoint_buffer, None)` /
the trailing asserts), because a buffered start/end time is never consumed
by a `Dialog` part. -/
theorem c4_srt_get_entries_panics_on_dialogless_record :
    (SrtFile.parse "1\n00:00:00,000 --> 00:00:01,000\n".toList).isSome = true ∧
    (SrtFile.parse "1\n00:00:00,000 --> 00:00:01,000\n".toList).bind
        SrtFile.get_subtitle_entries = none := by
  refine ⟨rfl, rfl⟩

/-- C4 (amended): when the entry extraction succeeds (in particular on
every parsed file in which each timespan is followed by a dialog line),
`get_subtitle_entries` returns the entries in source order: the texts are
the dialog texts in order, and the start/end times are the begin/end
timestamps in order.  The call is a pure function of the file value (the
source operates on a clone). -/
theorem c4_srt_get_entries_in_source_order (f : SrtFile) (es : List SubtitleEntry)
    (h : SrtFile.get_subtitle_entries f = some es) :
    es.map SubtitleEntry.line = (Srt.dialogTexts f.v).map some ∧
    es.map (fun e => e.timespan.start) = Srt.beginTimes f.v ∧
    es.map (fun e => e.timespan.«end») = Srt.endTimes f.v := by
  unfold SrtFile.get_subtitle_entries at h
  obtain ⟨l, hl, rfl⟩ :
      ∃ l, Srt.entries_walk none none f.v = some l ∧
        es = l.map (fun bet => SubtitleEntry.new (TimeSpan.new bet.1 bet.2.1) bet.2.2) := by
    cases hw : Srt.entries_walk none none f.v with
    | none => rw [hw] at h; simp at h
    | some l =>
      rw [hw] at h
      simp at h
      exact ⟨l, rfl, h.symm⟩
  obtain ⟨h1, h2, h3⟩ := Srt.entries_walk_proj f.v none none l hl
  simp only [Option.toList, List.nil_append] at h2 h3
  refine ⟨?_, ?_, ?_⟩
  · rw [← h1]
    simp [List.map_map, SubtitleEntry.new, Function.comp]
  · rw [← h2]
    simp [List.map_map, SubtitleEntry.new, TimeSpan.new, Function.comp]
  · rw [← h3]
    simp [List.map_map, SubtitleEntry.new, TimeSpan.new, Function.comp]

/-- Witness for C4's amended theorem at a concrete file. -/
theorem c4_srt_get_entries_in_source_order_witness :
    SrtFile.get_subtitle_entries
        (SrtFile.mk [SrtFilePart.TimespanBegin (TimePoint.from_msecs 0),
                     SrtFilePart.TimespanEnd (TimePoint.from_msecs 1000),
                     SrtFilePart.Dialog "a".toList]) =
      some [SubtitleEntry.new
        (TimeSpan.new (TimePoint.from_msecs 0) (TimePoint.from_msecs 1000)) "a".toList] ∧
    [SubtitleEntry.new
        (TimeSpan.new (TimePoint.from_msecs 0) (TimePoint.from_msecs 1000)) "a".toList].map
        SubtitleEntry.line =
      (Srt.dialogTexts [SrtFilePart.TimespanBegin (TimePoint.from_msecs 0),
                        SrtFilePart.TimespanEnd (TimePoint.from_msecs 1000),
                        SrtFilePart.Dialog "a".toList]).map some :=
  ⟨by decide,
   (c4_srt_get_entries_in_source_order _ _ (by decide)).1⟩

-- C7: MicroDVD frame/time conversions -------------------------------------

/-- Truncation of a nonnegative rational is its floor, which the value
exceeds by less than one. -/
theorem ratTrunc_nonneg_bounds (q : ℚ) (h : 0 ≤ q) :
    (ratTrunc q : ℚ) ≤ q ∧ q < ratTrunc q + 1 := by
  unfold ratTrunc
  rw [if_pos h]
  constructor
  · exact_mod_cast Int.floor_le q
  · exact_mod_cast Int.lt_floor_add_one q

/-- C7 (counterexample): the spec claims `get_entries` converts frames by
`ms = round(frame * 1000 / fps)`.  The source casts with `as i64`, which
truncates toward zero: at `frame = 2`, `fps = 3` the code yields `666 ms`
while rounding would yield `667 ms`. -/
theorem c7_mdvd_truncates_not_rounds :
    ((MdvdLine.mk 2 25 [] []).to_subtitle_entry 3).timespan.start.msecs = 666 ∧
    round ((2 : ℚ) * 1000 / 3) = 667 := by
  constructor
  · show ratTrunc ((2 : ℚ) * 1000 / 3) = 666
    rw [ratTrunc, if_pos (by norm_num)]
    norm_num [Int.floor_eq_iff]
  · rw [round_eq]
    norm_num [Int.floor_eq_iff]

/-- C7 (amended): the MicroDVD conversions truncate toward zero (for the
nonnegative values of interest this is the floor): `get_entries` yields
the unique integer `m` with `m ≤ frame*1000/fps < m+1`, and
`update_entries` writes back the unique frame `fr` with
`fr ≤ (ms/1000)*fps < fr+1`. -/
theorem c7_mdvd_conversions_truncate :
    (∀ (l : MdvdLine) (fps : ℚ), 0 < fps → 0 ≤ l.start_frame →
      (((l.to_subtitle_entry fps).timespan.start.msecs : ℚ) ≤
          (l.start_frame : ℚ) * 1000 / fps ∧
        (l.start_frame : ℚ) * 1000 / fps <
          ((l.to_subtitle_entry fps).timespan.start.msecs : ℚ) + 1)) ∧
    (∀ (f : MdvdFile) (es : List SubtitleEntry) (g : MdvdFile),
      MdvdFile.update_subtitle_entries f es = some g →
      ∀ (i : Nat) (li : MdvdLine) (e : SubtitleEntry),
        f.v.get? i = some li → es.get? i = some e →
        0 ≤ (e.timespan.start.msecs : ℚ) / 1000 * f.fps →
        ∃ fr : Int, (g.v.get? i).map MdvdLine.start_frame = some fr ∧
          (fr : ℚ) ≤ (e.timespan.start.msecs : ℚ) / 1000 * f.fps ∧
          (e.timespan.start.msecs : ℚ) / 1000 * f.fps < (fr : ℚ) + 1) := by
  constructor
  · intro l fps hfps hframe
    have hq : (0 : ℚ) ≤ (l.start_frame : ℚ) * 1000 / fps := by
      apply div_nonneg _ (le_of_lt hfps)
      positivity
    have hb := ratTrunc_nonneg_bounds _ hq
    simpa [MdvdLine.to_subtitle_entry, TimePoint.from_msecs, Timing.from_msecs,
      TimePoint.msecs, Timing.msecs, TimeSpan.new] using hb
  · intro f es g hupd i li e hli he hq
    unfold MdvdFile.update_subtitle_entries at hupd
    by_cases hlen : es.length ≠ f.v.length
    · rw [if_pos hlen] at hupd
      exact absurd hupd (by simp)
    · rw [if_neg hlen] at hupd
      have hg : g.v = (f.v.zip es).map fun le =>
          { le.1 with
            start_frame := ratTrunc ((le.2.timespan.start.msecs : ℚ) / 1000 * f.fps),
            end_frame := ratTrunc ((le.2.timespan.«end».msecs : ℚ) / 1000 * f.fps),
            text := le.2.line.getD le.1.text } := by
        rw [← Option.some.inj hupd]
      refine ⟨ratTrunc ((e.timespan.start.msecs : ℚ) / 1000 * f.fps), ?_, ?_, ?_⟩
      · rw [hg]
        rw [List.get?_map, (List.get?_zip_eq_some _ _ (li, e) _).mpr ⟨hli, he⟩]
        rfl
      · exact (ratTrunc_nonneg_bounds _ hq).1
      · exact (ratTrunc_nonneg_bounds _ hq).2

/-- Witness for C7's amended theorem: `frame = 2`, `fps = 3` gives
`666 ≤ 2000/3 < 667` on read; updating a one-line file (fps 3) with a
`[666 ms, 8333 ms]` entry writes back frames `1` and `24`, and
`1 ≤ (666/1000)*3 < 2`. -/
theorem c7_mdvd_conversions_truncate_witness :
    ((((MdvdLine.mk 2 25 [] []).to_subtitle_entry 3).timespan.start.msecs : ℚ) ≤
        ((2 : Int) : ℚ) * 1000 / 3 ∧
      ((2 : Int) : ℚ) * 1000 / 3 <
        ((((MdvdLine.mk 2 25 [] []).to_subtitle_entry 3).timespan.start.msecs : ℚ)) + 1) ∧
    MdvdFile.update_subtitle_entries (MdvdFile.mk 3 [MdvdLine.mk 2 25 [] []])
        [SubtitleEntry.fromTimeSpan
          (TimeSpan.new (TimePoint.from_msecs 666) (TimePoint.from_msecs 8333))] =
      some (MdvdFile.mk 3 [MdvdLine.mk 1 24 [] []]) ∧
    (∃ fr : Int,
      ((MdvdFile.mk 3 [MdvdLine.mk 1 24 [] []]).v.get? 0).map MdvdLine.start_frame =
        some fr ∧
      (fr : ℚ) ≤ (((TimePoint.from_msecs 666).msecs : ℚ)) / 1000 * 3 ∧
      (((TimePoint.from_msecs 666).msecs : ℚ)) / 1000 * 3 < (fr : ℚ) + 1) := by
  have hupd : MdvdFile.update_subtitle_entries (MdvdFile.mk 3 [MdvdLine.mk 2 25 [] []])
      [SubtitleEntry.fromTimeSpan
        (TimeSpan.new (TimePoint.from_msecs 666) (TimePoint.from_msecs 8333))] =
      some (MdvdFile.mk 3 [MdvdLine.mk 1 24 [] []]) := by
    unfold MdvdFile.update_subtitle_entries
    rw [if_neg (by norm_num)]
    simp only [List.zip_cons_cons, List.zip_nil_right, List.map_cons, List.map_nil,
      Option.some.injEq, SubtitleEntry.fromTimeSpan, TimeSpan.new, TimePoint.from_msecs,
      Timing.from_msecs, TimePoint.msecs, Timing.msecs]
    have h1 : ratTrunc ((666 : ℚ) / 1000 * 3) = 1 := by
      rw [ratTrunc, if_pos (by norm_num)]
      norm_num [Int.floor_eq_iff]
    have h2 : ratTrunc ((8333 : ℚ) / 1000 * 3) = 24 := by
      rw [ratTrunc, if_pos (by norm_num)]
      norm_num [Int.floor_eq_iff]
    simp [h1, h2]
  refine ⟨?_, hupd, ?_⟩
  · exact c7_mdvd_conversions_truncate.1 (MdvdLine.mk 2 25 [] []) 3 (by norm_num) (by norm_num)
  · exact c7_mdvd_conversions_truncate.2 (MdvdFile.mk 3 [MdvdLine.mk 2 25 [] []])
      [SubtitleEntry.fromTimeSpan
        (TimeSpan.new (TimePoint.from_msecs 666) (TimePoint.from_msecs 8333))]
      (MdvdFile.mk 3 [MdvdLine.mk 1 24 [] []]) hupd 0 (MdvdLine.mk 2 25 [] [])
      (SubtitleEntry.fromTimeSpan
        (TimeSpan.new (TimePoint.from_msecs 666) (TimePoint.from_msecs 8333)))
      rfl rfl (by norm_num [SubtitleEntry.fromTimeSpan, TimeSpan.new, TimePoint.from_msecs,
        Timing.from_msecs, TimePoint.msecs, Timing.msecs])

end Subparse
